import Mathlib

/-!
Shallow embedding of the car-pricing users/auth module.

Source files:
* src/src/users/user.entity.ts        — the User entity (id, email, password, admin).
* src/src/users/auth.service.spec.ts  — the AuthService tests and the fake UserStore
  (find filters by email; create hex-encodes an 8-byte random salt and derives a
  32-byte digest with pbkdf2(password, salt, 1000, 32, sha256), storing salt.digest).
* src/src/interceptors/serialize.interceptor.ts — response shaping.

AuthService itself (signup/signin) and UsersService are not among the sources; those
operations are modelled from the specification, as marked on each definition.
Randomness (the salt bytes, via crypto.randomBytes) and the PBKDF2 primitive are
external to the repository and are passed in as explicit parameters.
-/

namespace CarPricing

/-- The User entity of src/src/users/user.entity.ts: id (generated primary column),
email, password (the stored credential string), admin (column with default true).
The reports relation is irrelevant to the claims and omitted. -/
structure User where
  id : Nat
  email : String
  password : String
  admin : Bool
deriving Repr, DecidableEq

/-- The error kinds of the spec (§7): DuplicateIdentifierError (signup collision),
NotFoundError (signin, no match), InvalidCredentialsError (signin, digest mismatch
or ambiguous multi-match). -/
inductive AuthError where
  | DuplicateIdentifierError
  | NotFoundError
  | InvalidCredentialsError
deriving Repr, DecidableEq

/-- One byte rendered as two lowercase hexadecimal characters, as Buffer.toString
with the hex encoding does in the source test double. -/
def hexByte (b : Nat) : List Char :=
  [Nat.digitChar (b / 16 % 16), Nat.digitChar (b % 16)]

/-- The character list of the hex encoding of a byte sequence. -/
def hexChars (bs : List Nat) : List Char :=
  (bs.map hexByte).flatten

/-- Hex encoding of a byte sequence, as toString with the hex encoding. -/
def hexEncode (bs : List Nat) : String :=
  ⟨hexChars bs⟩

/-- From fakeUsersService.find in src/src/users/auth.service.spec.ts:
filters the stored users by email. -/
def find (store : List User) (email : String) : List User :=
  store.filter (fun u => u.email == email)

/-- The admin column default of src/src/users/user.entity.ts (default: true). -/
def adminDefault : Bool := true

/-- A system identifier strictly larger than every id already in the store. -/
def nextId (store : List User) : Nat :=
  (store.map User.id).foldr max 0 + 1

/-- Modelled from the spec: UserStore.create assigns a unique system identifier and
persists the record (UsersService itself is not among the sources; its test double
draws random ids and calls itself a simulation). A record persisted without an
explicit admin value receives the entity column default (user.entity.ts). -/
def create (store : List User) (email credential : String) : User × List User :=
  let user : User :=
    { id := nextId store, email := email, password := credential, admin := adminDefault }
  (user, store ++ [user])

/-- The salt byte length used by the source test double: crypto.randomBytes(8). -/
def saltByteLength : Nat := 8

/-- The PBKDF2 iteration count of the source test double. -/
def pbkdf2Iterations : Nat := 1000

/-- The PBKDF2 output key length in bytes of the source test double. -/
def pbkdf2KeyLength : Nat := 32

/-- Modelled from the spec: AuthService.signup (auth.service.ts is not among the
sources). Fails with DuplicateIdentifierError if one or more existing accounts share
the identifier, leaving the store untouched; otherwise hex-encodes the random salt
bytes, derives the digest with pbkdf2(password, salt, 1000, 32) as the source test
double does, stores the credential salt.digest via create and returns the account.
The random salt bytes and the PBKDF2 primitive are explicit parameters. -/
def signup (pbkdf2 : String → String → Nat → Nat → List Nat) (saltBytes : List Nat)
    (store : List User) (email password : String) :
    Except AuthError User × List User :=
  match find store email with
  | [] =>
    let salt := hexEncode saltBytes
    let digest := hexEncode (pbkdf2 password salt pbkdf2Iterations pbkdf2KeyLength)
    let res := create store email (salt ++ "." ++ digest)
    (Except.ok res.1, res.2)
  | _ :: _ => (Except.error AuthError.DuplicateIdentifierError, store)

/-- Split a string on the dot character, as the JavaScript split of the stored
credential does. -/
def splitOnDot (s : String) : List String :=
  (s.data.splitOn '.').map (fun l => ⟨l⟩)

/-- Modelled from the spec: AuthService.signin (auth.service.ts is not among the
sources). NotFoundError on zero matches; InvalidCredentialsError on more than one
match (the spec preserves this source behavior); otherwise splits the stored
credential on the dot into salt and expected digest, recomputes the digest from the
supplied plaintext with the same PBKDF2 parameters and compares; a mismatch is
InvalidCredentialsError, a match returns the account. -/
def signin (pbkdf2 : String → String → Nat → Nat → List Nat)
    (store : List User) (email password : String) : Except AuthError User :=
  match find store email with
  | [] => Except.error AuthError.NotFoundError
  | [user] =>
    match splitOnDot user.password with
    | salt :: storedDigest :: _ =>
      if hexEncode (pbkdf2 password salt pbkdf2Iterations pbkdf2KeyLength) = storedDigest then
        Except.ok user
      else
        Except.error AuthError.InvalidCredentialsError
    | _ => Except.error AuthError.InvalidCredentialsError
  | _ :: _ :: _ => Except.error AuthError.InvalidCredentialsError

/-- A request to the credential service: a signup (with its drawn salt bytes) or a
signin. -/
inductive Op where
  | signupOp (saltBytes : List Nat) (email password : String)
  | signinOp (email password : String)
deriving Repr

/-- Runs a sequence of signup/signin requests against a store. Signin reads the
store and never modifies it; signup threads the store produced by the call. -/
def runOps (pbkdf2 : String → String → Nat → Nat → List Nat)
    (store : List User) : List Op → List User
  | [] => store
  | Op.signupOp saltBytes email password :: ops =>
    runOps pbkdf2 (signup pbkdf2 saltBytes store email password).2 ops
  | Op.signinOp _ _ :: ops => runOps pbkdf2 store ops

/-- A response object: a finite list of named fields with their rendered values. -/
abbrev Obj := List (String × String)

/-- A response payload handed to the interceptor: a single object or an ordered
collection of objects. -/
inductive Payload where
  | single (o : Obj)
  | collection (os : List Obj)
deriving Repr, DecidableEq

/-- Modelled from the spec: the field allow-list transformation performed by
SerializeInterceptor.intercept (src/src/interceptors/serialize.interceptor.ts) via
plainToClass with excludeExtraneousValues set — the class-transformer library and
the dto class carrying the allow-list are external to the sources. Keeps exactly
the allow-listed fields of one object. -/
def shapeObj (allow : List String) (o : Obj) : Obj :=
  o.filter (fun kv => allow.contains kv.1)

/-- Modelled from the spec: the shaping operation applied uniformly to a single
object or to an ordered collection of objects. -/
def shape (allow : List String) : Payload → Payload
  | Payload.single o => Payload.single (shapeObj allow o)
  | Payload.collection os => Payload.collection (os.map (shapeObj allow))

/-- The field names appearing anywhere in a payload. -/
def payloadKeys : Payload → List String
  | Payload.single o => o.map Prod.fst
  | Payload.collection os => (os.map (fun o => o.map Prod.fst)).flatten

/-- A well-formed stored credential: exactly one dot separator, splitting it into a
non-empty salt part and a non-empty digest part. -/
def CredWellFormed (cred : String) : Prop :=
  ∃ salt digest, cred = salt ++ "." ++ digest ∧ salt ≠ "" ∧ digest ≠ "" ∧
    '.' ∉ salt.data ∧ '.' ∉ digest.data ∧
    cred.data.count '.' = 1 ∧ splitOnDot cred = [salt, digest]

/-! ### Helper lemmas -/

theorem digitChar_ne_dot (n : Nat) : Nat.digitChar n ≠ '.' := by
  by_cases h : n < 16
  · interval_cases n <;> decide
  · unfold Nat.digitChar
    repeat rw [if_neg (by omega)]
    decide

theorem dot_not_mem_hexChars (bs : List Nat) : '.' ∉ hexChars bs := by
  intro h
  simp only [hexChars, List.mem_flatten, List.mem_map] at h
  obtain ⟨l, ⟨b, _, rfl⟩, hmem⟩ := h
  simp only [hexByte, List.mem_cons, List.not_mem_nil, or_false] at hmem
  rcases hmem with h | h
  · exact digitChar_ne_dot _ h.symm
  · exact digitChar_ne_dot _ h.symm

theorem dot_not_mem_hexEncode (bs : List Nat) : '.' ∉ (hexEncode bs).data :=
  dot_not_mem_hexChars bs

theorem hexEncode_length (bs : List Nat) : (hexEncode bs).length = 2 * bs.length := by
  show (hexChars bs).length = 2 * bs.length
  induction bs with
  | nil => rfl
  | cons b bs ih =>
    simp only [hexChars, List.map_cons, List.flatten_cons, List.length_append,
      hexByte, List.length_cons, List.length_nil] at ih ⊢
    omega

theorem hexEncode_ne_empty (bs : List Nat) (h : bs ≠ []) : hexEncode bs ≠ "" := by
  intro hcontra
  have hlen : (hexEncode bs).length = 0 := by rw [hcontra]; rfl
  rw [hexEncode_length] at hlen
  have : bs.length = 0 := by omega
  exact h (List.length_eq_zero.mp this)

theorem data_append_dot (s d : String) :
    (s ++ "." ++ d).data = s.data ++ '.' :: d.data := by
  rw [String.data_append, String.data_append]
  simp

theorem splitOnDot_append (s d : String) (hs : '.' ∉ s.data) (hd : '.' ∉ d.data) :
    splitOnDot (s ++ "." ++ d) = [s, d] := by
  unfold splitOnDot
  rw [data_append_dot]
  simp only [List.splitOn]
  rw [List.splitOnP_first (· == '.') s.data (fun x hx h => hs (eq_of_beq h ▸ hx)) '.'
      (by decide),
    List.splitOnP_eq_single (· == '.') d.data (fun x hx h => hd (eq_of_beq h ▸ hx))]
  rfl

theorem count_dot_append (s d : String) (hs : '.' ∉ s.data) (hd : '.' ∉ d.data) :
    (s ++ "." ++ d).data.count '.' = 1 := by
  rw [data_append_dot, List.count_append, List.count_cons]
  rw [List.count_eq_zero.mpr hs, List.count_eq_zero.mpr hd]
  simp

theorem credWellFormed_mk (salt digest : String) (h1 : salt ≠ "") (h2 : digest ≠ "")
    (hs : '.' ∉ salt.data) (hd : '.' ∉ digest.data) :
    CredWellFormed (salt ++ "." ++ digest) :=
  ⟨salt, digest, rfl, h1, h2, hs, hd, count_dot_append salt digest hs hd,
    splitOnDot_append salt digest hs hd⟩

theorem find_append_singleton (store : List User) (u : User) (email : String)
    (hfree : find store email = []) (hu : u.email = email) :
    find (store ++ [u]) email = [u] := by
  unfold find at hfree ⊢
  rw [List.filter_append, hfree, List.nil_append]
  simp [hu]

/-- The account record a successful signup persists: the next system id, the
identifier, the salt.digest credential and the admin column default. -/
def signupUser (pbkdf2 : String → String → Nat → Nat → List Nat)
    (saltBytes : List Nat) (store : List User) (email password : String) : User :=
  { id := nextId store, email := email,
    password := hexEncode saltBytes ++ "." ++
      hexEncode (pbkdf2 password (hexEncode saltBytes) pbkdf2Iterations pbkdf2KeyLength),
    admin := adminDefault }

theorem signup_ok_elim (pbkdf2 : String → String → Nat → Nat → List Nat)
    (saltBytes : List Nat) (store : List User) (email password : String)
    (user : User) (store2 : List User)
    (hok : signup pbkdf2 saltBytes store email password = (Except.ok user, store2)) :
    find store email = [] ∧
    user = signupUser pbkdf2 saltBytes store email password ∧
    store2 = store ++ [user] := by
  cases hfind : find store email with
  | nil =>
    unfold signup at hok
    rw [hfind] at hok
    simp only [create, Prod.mk.injEq, Except.ok.injEq] at hok
    obtain ⟨h1, h2⟩ := hok
    exact ⟨rfl, h1.symm, by rw [← h2, h1]⟩
  | cons a l =>
    unfold signup at hok
    rw [hfind] at hok
    simp only [Prod.mk.injEq] at hok
    exact Except.noConfusion hok.1

/-! ### Claim theorems -/

/-- C1: for every identifier not already present in the store, after a successful
signup(identifier, plaintextPassword), immediately calling signin with the same
identifier and the same plaintext password succeeds and returns an Account whose
identifier equals the one signed up. -/
theorem signup_signin_roundtrip (pbkdf2 : String → String → Nat → Nat → List Nat)
    (saltBytes : List Nat) (store : List User) (email password : String)
    (hfree : find store email = []) :
    ∃ user store2,
      signup pbkdf2 saltBytes store email password = (Except.ok user, store2) ∧
      signin pbkdf2 store2 email password = Except.ok user ∧
      user.email = email := by
  refine ⟨signupUser pbkdf2 saltBytes store email password,
    store ++ [signupUser pbkdf2 saltBytes store email password], ?_, ?_, rfl⟩
  · unfold signup
    rw [hfree]
    rfl
  · have hfind2 := find_append_singleton store
      (signupUser pbkdf2 saltBytes store email password) email hfree rfl
    have hsplit := splitOnDot_append (hexEncode saltBytes)
      (hexEncode (pbkdf2 password (hexEncode saltBytes) pbkdf2Iterations pbkdf2KeyLength))
      (dot_not_mem_hexEncode _) (dot_not_mem_hexEncode _)
    have hsplit2 : splitOnDot (signupUser pbkdf2 saltBytes store email password).password
        = [hexEncode saltBytes,
           hexEncode (pbkdf2 password (hexEncode saltBytes) pbkdf2Iterations pbkdf2KeyLength)] :=
      hsplit
    simp only [signin, hfind2, hsplit2, if_pos]

/-- C2: for every identifier that already has one or more accounts in the store,
signup fails with DuplicateIdentifierError and the store — in particular the
already-stored record for that identifier — is unchanged by the failed call. -/
theorem signup_duplicate_unchanged (pbkdf2 : String → String → Nat → Nat → List Nat)
    (saltBytes : List Nat) (store : List User) (email password : String)
    (hdup : find store email ≠ []) :
    signup pbkdf2 saltBytes store email password =
      (Except.error AuthError.DuplicateIdentifierError, store) := by
  unfold signup
  cases hfind : find store email with
  | nil => exact absurd hfind hdup
  | cons a l => rfl

/-- C3: for every identifier registered with some password, signin with that
identifier and a plaintext whose recomputed digest does not equal the stored
digest fails with InvalidCredentialsError. -/
theorem signin_wrong_password (pbkdf2 : String → String → Nat → Nat → List Nat)
    (store : List User) (email password : String) (u : User) (salt digest : String)
    (hfind : find store email = [u])
    (hcred : u.password = salt ++ "." ++ digest)
    (hs : '.' ∉ salt.data) (hd : '.' ∉ digest.data)
    (hmismatch : hexEncode (pbkdf2 password salt pbkdf2Iterations pbkdf2KeyLength) ≠ digest) :
    signin pbkdf2 store email password = Except.error AuthError.InvalidCredentialsError := by
  have hsplit : splitOnDot u.password = [salt, digest] := by
    rw [hcred]; exact splitOnDot_append salt digest hs hd
  simp only [signin, hfind, hsplit, if_neg hmismatch]

/-- C4: for every identifier for which the store lookup returns zero matching
accounts, signin fails with NotFoundError, whatever the plaintext password is. -/
theorem signin_not_found (pbkdf2 : String → String → Nat → Nat → List Nat)
    (store : List User) (email password : String)
    (hnone : find store email = []) :
    signin pbkdf2 store email password = Except.error AuthError.NotFoundError := by
  unfold signin
  rw [hnone]

/-- C10: a User record persisted without an explicitly supplied admin value — in
particular one created by signup, which supplies only identifier and credential —
has its admin flag set to true, the entity column default. -/
theorem signup_admin_flag (pbkdf2 : String → String → Nat → Nat → List Nat)
    (saltBytes : List Nat) (store : List User) (email password : String)
    (user : User) (store2 : List User)
    (hok : signup pbkdf2 saltBytes store email password = (Except.ok user, store2)) :
    user.admin = true := by
  obtain ⟨-, huser, -⟩ := signup_ok_elim pbkdf2 saltBytes store email password user store2 hok
  rw [huser]
  rfl

/-- C5 counterexample: the spec treats the key-derivation primitive abstractly
(deterministic, fixed output length, hex-encoded); for the constant-zero such
primitive, a plaintext of the exact form salt.digest collides with the stored
credential: signup succeeds on a fresh identifier and the credential stored on
and returned with the account equals the supplied plaintext. -/
theorem signup_plaintext_collision :
    (signup (fun _ _ _ klen => List.replicate klen 0) [0, 0, 0, 0, 0, 0, 0, 0] []
        "collide@x.com"
        "0000000000000000.0000000000000000000000000000000000000000000000000000000000000000").1
      = Except.ok
          { id := 1, email := "collide@x.com",
            password := "0000000000000000.0000000000000000000000000000000000000000000000000000000000000000",
            admin := true } := by
  rfl

/-- C5 (amended): for every identifier not previously registered and every
plaintext password that does not contain the dot separator character, signup
succeeds and the credential string stored on (and returned with) the resulting
Account is never equal to the plaintext password supplied. -/
theorem signup_credential_ne_plaintext (pbkdf2 : String → String → Nat → Nat → List Nat)
    (saltBytes : List Nat) (store : List User) (email password : String)
    (hfree : find store email = []) (hpw : '.' ∉ password.data) :
    ∃ user store2,
      signup pbkdf2 saltBytes store email password = (Except.ok user, store2) ∧
      user.password ≠ password := by
  refine ⟨signupUser pbkdf2 saltBytes store email password,
    store ++ [signupUser pbkdf2 saltBytes store email password], ?_, ?_⟩
  · unfold signup
    rw [hfree]
    rfl
  · intro hcontra
    apply hpw
    rw [← hcontra]
    show '.' ∈ (hexEncode saltBytes ++ "." ++
      hexEncode (pbkdf2 password (hexEncode saltBytes) pbkdf2Iterations pbkdf2KeyLength)).data
    rw [data_append_dot]
    simp

theorem mem_le_foldr_max (l : List Nat) (x : Nat) (hx : x ∈ l) : x ≤ l.foldr max 0 := by
  induction l with
  | nil => cases hx
  | cons a l ih =>
    rw [List.foldr_cons]
    rcases List.mem_cons.mp hx with rfl | h
    · exact le_max_left _ _
    · exact le_trans (ih h) (le_max_right _ _)

theorem runOps_wellformed_aux (pbkdf2 : String → String → Nat → Nat → List Nat)
    (hkl : ∀ pw s iter klen, (pbkdf2 pw s iter klen).length = klen)
    (ops : List Op) :
    ∀ store : List User,
      (∀ sb e p, Op.signupOp sb e p ∈ ops → sb ≠ []) →
      (∀ u ∈ store, CredWellFormed u.password) →
      ∀ u ∈ runOps pbkdf2 store ops, CredWellFormed u.password := by
  induction ops with
  | nil =>
    intro store _ hstore u hu
    exact hstore u hu
  | cons op ops ih =>
    intro store hops hstore u hu
    cases op with
    | signinOp e p =>
      exact ih store (fun sb e2 p2 h => hops sb e2 p2 (List.mem_cons_of_mem _ h)) hstore u hu
    | signupOp sb e p =>
      refine ih (signup pbkdf2 sb store e p).2
        (fun sb2 e2 p2 h => hops sb2 e2 p2 (List.mem_cons_of_mem _ h)) ?_ u hu
      intro v hv
      cases hfind : find store e with
      | cons a l =>
        have hsame : (signup pbkdf2 sb store e p).2 = store := by
          unfold signup
          rw [hfind]
        rw [hsame] at hv
        exact hstore v hv
      | nil =>
        have hnew : (signup pbkdf2 sb store e p).2
            = store ++ [signupUser pbkdf2 sb store e p] := by
          unfold signup
          rw [hfind]
          rfl
        rw [hnew] at hv
        rcases List.mem_append.mp hv with h | h
        · exact hstore v h
        · rw [List.mem_singleton] at h
          subst h
          show CredWellFormed (hexEncode sb ++ "." ++
            hexEncode (pbkdf2 p (hexEncode sb) pbkdf2Iterations pbkdf2KeyLength))
          apply credWellFormed_mk
          · exact hexEncode_ne_empty sb (hops sb e p (List.mem_cons_self _ _))
          · apply hexEncode_ne_empty
            intro hnil
            have hlen := hkl p (hexEncode sb) pbkdf2Iterations pbkdf2KeyLength
            rw [hnil] at hlen
            simp [pbkdf2KeyLength] at hlen
          · exact dot_not_mem_hexEncode _
          · exact dot_not_mem_hexEncode _

/-- C6: every credential produced by signup and held in the store after any
sequence of signup/signin operations (started from the empty store) contains
exactly one dot separator, and splitting on it yields a non-empty salt part
and a non-empty digest part. The hypotheses record what the external
primitives guarantee: crypto.randomBytes draws a non-empty salt and PBKDF2
returns its requested key length. -/
theorem runOps_credentials_wellformed (pbkdf2 : String → String → Nat → Nat → List Nat)
    (ops : List Op)
    (hkl : ∀ pw s iter klen, (pbkdf2 pw s iter klen).length = klen)
    (hsalts : ∀ sb e p, Op.signupOp sb e p ∈ ops → sb ≠ []) :
    ∀ u ∈ runOps pbkdf2 [] ops, CredWellFormed u.password :=
  runOps_wellformed_aux pbkdf2 hkl ops [] hsalts (fun u hu => absurd hu (List.not_mem_nil u))

/-- C7: on every successful signup the stored credential is the hex encoding of
the 8 drawn salt bytes (16 hex characters), a dot, and the hex encoding of the
digest the key-derivation primitive returns for (plaintext, salt) at the fixed
iteration count 1000 (≥ 1000) and the fixed output length of 32 bytes (64 hex
characters). -/
theorem signup_credential_scheme (pbkdf2 : String → String → Nat → Nat → List Nat)
    (saltBytes : List Nat) (store : List User) (email password : String)
    (user : User) (store2 : List User)
    (hkl : ∀ pw s iter klen, (pbkdf2 pw s iter klen).length = klen)
    (hsalt : saltBytes.length = saltByteLength)
    (hok : signup pbkdf2 saltBytes store email password = (Except.ok user, store2)) :
    user.password = hexEncode saltBytes ++ "." ++
        hexEncode (pbkdf2 password (hexEncode saltBytes) pbkdf2Iterations pbkdf2KeyLength) ∧
    (hexEncode saltBytes).length = 16 ∧
    (hexEncode (pbkdf2 password (hexEncode saltBytes) pbkdf2Iterations pbkdf2KeyLength)).length
      = 64 ∧
    pbkdf2Iterations ≥ 1000 ∧ pbkdf2KeyLength = 32 ∧ saltByteLength = 8 := by
  obtain ⟨-, huser, -⟩ := signup_ok_elim pbkdf2 saltBytes store email password user store2 hok
  refine ⟨by rw [huser]; rfl, ?_, ?_, by decide, rfl, rfl⟩
  · rw [hexEncode_length, hsalt]
    rfl
  · rw [hexEncode_length, hkl]
    rfl

/-- C8: the shaping operation, applied to a single object or to an ordered
collection, returns a payload containing only allow-listed fields, every
unlisted field being dropped whatever the source object's shape; in particular
the password field, when not allow-listed, never appears in a shaped output. -/
theorem shapeObj_keys_sub (allow : List String) (o : Obj) :
    ∀ k ∈ (shapeObj allow o).map Prod.fst, k ∈ allow := by
  intro k hk
  obtain ⟨kv, hkv, rfl⟩ := List.mem_map.mp hk
  have hfil := (List.mem_filter.mp hkv).2
  simpa using hfil

theorem shape_only_allowed_fields (allow : List String) (p : Payload) :
    (∀ k ∈ payloadKeys (shape allow p), k ∈ allow) ∧
    ("password" ∉ allow → "password" ∉ payloadKeys (shape allow p)) := by
  have hmain : ∀ k ∈ payloadKeys (shape allow p), k ∈ allow := by
    intro k hk
    cases p with
    | single o => exact shapeObj_keys_sub allow o k hk
    | collection os =>
      simp only [shape, payloadKeys, List.map_map, List.mem_flatten, List.mem_map,
        Function.comp] at hk
      obtain ⟨l, ⟨o, ho, rfl⟩, hmem⟩ := hk
      exact shapeObj_keys_sub allow o k hmem
  exact ⟨hmain, fun hpw hk => hpw (hmain _ hk)⟩

/-- C9: the account persisted by UserStore.create receives a system identifier
distinct from the id of every account already in the store. -/
theorem create_id_unique (store : List User) (email credential : String) :
    ∀ u ∈ store, u.id ≠ (create store email credential).1.id := by
  intro u hu hcontra
  have h1 : u.id ≤ (store.map User.id).foldr max 0 :=
    mem_le_foldr_max _ _ (List.mem_map_of_mem _ hu)
  have h2 : (create store email credential).1.id = (store.map User.id).foldr max 0 + 1 := rfl
  rw [h2] at hcontra
  omega

/-! ### Witnesses -/

theorem signup_signin_roundtrip_witness :
    find ([] : List User) "c@x.com" = [] ∧
    ∃ user store2,
      signup (fun _ _ _ klen => List.replicate klen 0) [0, 0, 0, 0, 0, 0, 0, 0] []
          "c@x.com" "secret" = (Except.ok user, store2) ∧
      signin (fun _ _ _ klen => List.replicate klen 0) store2 "c@x.com" "secret"
        = Except.ok user ∧
      user.email = "c@x.com" :=
  ⟨rfl, signup_signin_roundtrip (fun _ _ _ klen => List.replicate klen 0)
    [0, 0, 0, 0, 0, 0, 0, 0] [] "c@x.com" "secret" rfl⟩

theorem signup_duplicate_unchanged_witness :
    find [{ id := 1, email := "a@x.com", password := "ab.cd", admin := true }] "a@x.com" ≠ [] ∧
    signup (fun _ _ _ klen => List.replicate klen 0) [0, 0, 0, 0, 0, 0, 0, 0]
        [{ id := 1, email := "a@x.com", password := "ab.cd", admin := true }] "a@x.com" "pw2"
      = (Except.error AuthError.DuplicateIdentifierError,
         [{ id := 1, email := "a@x.com", password := "ab.cd", admin := true }]) :=
  ⟨by decide, signup_duplicate_unchanged (fun _ _ _ klen => List.replicate klen 0)
    [0, 0, 0, 0, 0, 0, 0, 0]
    [{ id := 1, email := "a@x.com", password := "ab.cd", admin := true }] "a@x.com" "pw2"
    (by decide)⟩

theorem signin_wrong_password_witness :
    find [{ id := 1, email := "b@x.com", password := "ab.cd", admin := true }] "b@x.com"
        = [{ id := 1, email := "b@x.com", password := "ab.cd", admin := true }] ∧
    signin (fun _ _ _ klen => List.replicate klen 0)
        [{ id := 1, email := "b@x.com", password := "ab.cd", admin := true }] "b@x.com" "wrong"
      = Except.error AuthError.InvalidCredentialsError :=
  ⟨by decide, signin_wrong_password (fun _ _ _ klen => List.replicate klen 0)
    [{ id := 1, email := "b@x.com", password := "ab.cd", admin := true }] "b@x.com" "wrong"
    { id := 1, email := "b@x.com", password := "ab.cd", admin := true } "ab" "cd"
    (by decide) (by decide) (by decide) (by decide) (by decide)⟩

theorem signin_not_found_witness :
    find ([] : List User) "missing@x.com" = [] ∧
    signin (fun _ _ _ klen => List.replicate klen 0) [] "missing@x.com" "anything"
      = Except.error AuthError.NotFoundError :=
  ⟨rfl, signin_not_found (fun _ _ _ klen => List.replicate klen 0) [] "missing@x.com"
    "anything" rfl⟩

theorem signup_admin_flag_witness :
    signup (fun _ _ _ klen => List.replicate klen 0) [0, 0, 0, 0, 0, 0, 0, 0] [] "t@t.com" "pw"
      = (Except.ok
          { id := 1, email := "t@t.com",
            password := "0000000000000000.0000000000000000000000000000000000000000000000000000000000000000",
            admin := true },
         [{ id := 1, email := "t@t.com",
            password := "0000000000000000.0000000000000000000000000000000000000000000000000000000000000000",
            admin := true }]) ∧
    ({ id := 1, email := "t@t.com",
       password := "0000000000000000.0000000000000000000000000000000000000000000000000000000000000000",
       admin := true } : User).admin = true :=
  ⟨by rfl, signup_admin_flag (fun _ _ _ klen => List.replicate klen 0)
    [0, 0, 0, 0, 0, 0, 0, 0] [] "t@t.com" "pw"
    { id := 1, email := "t@t.com",
      password := "0000000000000000.0000000000000000000000000000000000000000000000000000000000000000",
      admin := true }
    [{ id := 1, email := "t@t.com",
       password := "0000000000000000.0000000000000000000000000000000000000000000000000000000000000000",
       admin := true }]
    (by rfl)⟩

theorem signup_credential_ne_plaintext_witness :
    find ([] : List User) "d@x.com" = [] ∧ '.' ∉ "mypassword".data ∧
    ∃ user store2,
      signup (fun _ _ _ klen => List.replicate klen 0) [0, 0, 0, 0, 0, 0, 0, 0] []
          "d@x.com" "mypassword" = (Except.ok user, store2) ∧
      user.password ≠ "mypassword" :=
  ⟨rfl, by decide, signup_credential_ne_plaintext (fun _ _ _ klen => List.replicate klen 0)
    [0, 0, 0, 0, 0, 0, 0, 0] [] "d@x.com" "mypassword" rfl (by decide)⟩

theorem runOps_credentials_wellformed_witness :
    CredWellFormed
      (({ id := 1, email := "a@x.com",
          password := "0000000000000000.0000000000000000000000000000000000000000000000000000000000000000",
          admin := true } : User).password) :=
  runOps_credentials_wellformed (fun _ _ _ klen => List.replicate klen 0)
    [Op.signupOp [0, 0, 0, 0, 0, 0, 0, 0] "a@x.com" "pw"]
    (fun _ _ _ klen => List.length_replicate klen 0)
    (by
      intro sb e p h
      rw [List.mem_singleton] at h
      injection h with h1 h2 h3
      subst h1
      decide)
    { id := 1, email := "a@x.com",
      password := "0000000000000000.0000000000000000000000000000000000000000000000000000000000000000",
      admin := true }
    (by decide)

theorem signup_credential_scheme_witness :
    ({ id := 1, email := "s@t.com",
       password := "0000000000000000.0000000000000000000000000000000000000000000000000000000000000000",
       admin := true } : User).password
      = hexEncode [0, 0, 0, 0, 0, 0, 0, 0] ++ "." ++ hexEncode (List.replicate 32 0) ∧
    (hexEncode [0, 0, 0, 0, 0, 0, 0, 0]).length = 16 ∧
    (hexEncode (List.replicate 32 0)).length = 64 ∧
    pbkdf2Iterations ≥ 1000 ∧ pbkdf2KeyLength = 32 ∧ saltByteLength = 8 :=
  signup_credential_scheme (fun _ _ _ klen => List.replicate klen 0)
    [0, 0, 0, 0, 0, 0, 0, 0] [] "s@t.com" "pw"
    { id := 1, email := "s@t.com",
      password := "0000000000000000.0000000000000000000000000000000000000000000000000000000000000000",
      admin := true }
    [{ id := 1, email := "s@t.com",
       password := "0000000000000000.0000000000000000000000000000000000000000000000000000000000000000",
       admin := true }]
    (fun _ _ _ klen => List.length_replicate klen 0)
    (by decide) (by rfl)

theorem shape_only_allowed_fields_witness :
    "password" ∉ payloadKeys (shape ["id", "email"]
      (Payload.single [("id", "7"), ("email", "a@x.com"), ("password", "s.d")])) :=
  (shape_only_allowed_fields ["id", "email"]
    (Payload.single [("id", "7"), ("email", "a@x.com"), ("password", "s.d")])).2
    (by decide)

theorem create_id_unique_witness :
    ({ id := 1, email := "e@x.com", password := "ab.cd", admin := true } : User).id
      ≠ (create [{ id := 1, email := "e@x.com", password := "ab.cd", admin := true }]
          "f@x.com" "ef.gh").1.id :=
  create_id_unique [{ id := 1, email := "e@x.com", password := "ab.cd", admin := true }]
    "f@x.com" "ef.gh"
    { id := 1, email := "e@x.com", password := "ab.cd", admin := true } (by decide)

end CarPricing
